import Mathlib

/-!
# Verification of the image-processor job distribution slice

Shallow embedding of the queue-mediated job distribution core of the
`image-processor` repository: the envelope codec (`pkg/message/codec.go`),
the fanout publisher (`internal/handler/router.go`), and the worker pool
(`internal/worker/consumer.go`, with the processing-type dispatch version
of that file found among the unnamed source parts).

External collaborators (image library, MinIO object storage, RabbitMQ
broker) are modelled as oracles: each fallible call is a field of an
oracle structure deciding success or failure, and the image transforms
are constructors of a free `Image` algebra, since the library is out of
scope and only dispatch correctness is at issue.
-/

namespace ImageProc

/-! ## JSON model

`encoding/json` values are modelled as a JSON AST.  A byte string on the
wire is either well-formed JSON or not (`Bytes.invalid`); serialization
of a JSON value is injective, so marshal/unmarshal round-trips are
modelled as the identity on the AST.  JSON numbers are modelled as `Int`
(the envelope uses them only for the timestamp instant). -/

inductive Json where
  | null
  | bool (b : Bool)
  | num (n : Int)
  | str (s : String)
  | arr (elems : List Json)
  | obj (fields : List (String × Json))
deriving Repr

/-- A byte string handed to `Decode`: either not valid JSON at all, or a
serialized JSON value. -/
inductive Bytes where
  | invalid
  | json (j : Json)
deriving Repr

/-- First field with the given key (the codec never emits duplicate keys). -/
def getField (fields : List (String × Json)) (key : String) : Option Json :=
  (fields.find? (fun kv => kv.1 == key)).map (·.2)

/-- `json.Unmarshal` into a `string`-typed struct field: a missing key
keeps the zero value `""`, a present key must hold a JSON string. -/
def strField (fields : List (String × Json)) (key : String) : Option String :=
  match getField fields key with
  | none => some ""
  | some (Json.str s) => some s
  | some _ => none

/-- `json.Unmarshal` into the `time.Time`-typed field, with the instant
modelled as an integer: missing key keeps the zero instant. -/
def timeField (fields : List (String × Json)) (key : String) : Option Int :=
  match getField fields key with
  | none => some 0
  | some (Json.num n) => some n
  | some _ => none

/-! ## Envelope codec (`pkg/message/codec.go`) -/

/-- `message.Envelope`.  `payload` is the `json.RawMessage` field: the raw
serialized bytes of the payload, i.e. a JSON subtree; `none` models the
`nil` raw message left when the `payload` key is absent. -/
structure Envelope where
  traceID : String
  source : String
  timestamp : Int
  payload : Option Json
deriving Repr

/-- `message.Encode(traceID, source, payload)`: marshal the payload
(`toJson`, total for JSON-serializable payloads), wrap it with
trace_id/source/encode-time timestamp, marshal the wrapper.  The clock
reading `now` is passed explicitly in place of `time.Now().UTC()`. -/
def Encode {α : Type} (now : Int) (traceID source : String)
    (toJson : α → Json) (payload : α) : Bytes :=
  Bytes.json (Json.obj
    [("trace_id", Json.str traceID),
     ("source", Json.str source),
     ("timestamp", Json.num now),
     ("payload", toJson payload)])

/-- Outer stage of `Decode`: `json.Unmarshal(data, &env)`.  Fails on
bytes that are not JSON, on a non-object top level, or on a wrongly
typed field; a missing field keeps the zero value, and the `payload`
raw-message field accepts any JSON subtree. -/
def envUnmarshal (data : Bytes) : Option Envelope :=
  match data with
  | Bytes.invalid => none
  | Bytes.json (Json.obj fields) => do
      let tid ← strField fields "trace_id"
      let src ← strField fields "source"
      let ts ← timeField fields "timestamp"
      some ⟨tid, src, ts, getField fields "payload"⟩
  | Bytes.json _ => none

/-- Inner stage of `Decode`: `json.Unmarshal(env.Payload, &payload)`.
Unmarshalling a `nil` raw message fails. -/
def payloadUnmarshal {α : Type} (fromJson : Json → Option α)
    (env : Envelope) : Option α :=
  match env.payload with
  | none => none
  | some pj => fromJson pj

/-- `message.Decode[T](data) -> (*Envelope, *T, error)`, with the `Bool`
component standing for `error != nil`.  Two-stage: outer wrapper first
(failure returns neither component), inner payload second (failure still
returns the envelope). -/
def Decode {α : Type} (fromJson : Json → Option α) (data : Bytes) :
    Option Envelope × Option α × Bool :=
  match envUnmarshal data with
  | none => (none, none, true)
  | some env =>
    match payloadUnmarshal fromJson env with
    | none => (some env, none, true)
    | some p => (some env, some p, false)

/-! ## Job model (`internal/models`, uses in `router.go` / the worker) -/

/-- `models.ImageJob`: plural `urls` / `processing_types` fields; a
post-fanout job carries singleton lists. -/
structure ImageJob where
  urls : List String
  processingTypes : List String
deriving Repr, DecidableEq

def strListToJson (xs : List String) : Json :=
  Json.arr (xs.map Json.str)

def jsonToStrList (j : Json) : Option (List String) :=
  match j with
  | Json.arr elems => elems.mapM (fun e => match e with
      | Json.str s => some s
      | _ => none)
  | _ => none

/-- Marshal of `models.ImageJob` (wire field names `urls` /
`processing_types`). -/
def imageJobToJson (job : ImageJob) : Json :=
  Json.obj [("urls", strListToJson job.urls),
            ("processing_types", strListToJson job.processingTypes)]

/-- `json.Unmarshal` into `models.ImageJob`: missing keys keep `nil`
slices (empty lists). -/
def imageJobFromJson (j : Json) : Option ImageJob :=
  match j with
  | Json.obj fields => do
      let urls ← match getField fields "urls" with
        | none => some []
        | some v => jsonToStrList v
      let ptypes ← match getField fields "processing_types" with
        | none => some []
        | some v => jsonToStrList v
      some ⟨urls, ptypes⟩
  | _ => none

/-! ## Job fanout publisher (`internal/handler/router.go`)

The `/submit` handler decodes the body into an `ImageJob` (the
submission), validates the processing types, and fans out one publish
call per (url, type) pair.  The broker is modelled by an oracle
`pubOk : Nat → Bool` giving the outcome of the n-th `ch.Publish` call
(calls are numbered in program order from 0). -/

/-- The `allowedProcessingTypes` set (a Go map with five keys). -/
def allowedProcessingTypes : List String :=
  ["original", "grayscale", "resize", "blur", "sharpen"]

/-- `getAllowedProcessingTypes()`. -/
def getAllowedProcessingTypes : List String :=
  ["original", "grayscale", "resize", "blur", "sharpen"]

/-- `validateProcessingTypes`: collect, in order and with multiplicity,
every entry not in the allowed set. -/
def validateProcessingTypes (types : List String) : List String :=
  types.filter (fun t => !(allowedProcessingTypes.contains t))

/-- The message built by `publishJob`: an `ImageJob` with singleton
`urls` and `processing_types`. -/
def jobFor (url processingType : String) : ImageJob :=
  ⟨[url], [processingType]⟩

/-- The HTTP response of the `/submit` handler. -/
inductive SubmitResponse where
  | badRequest (invalidTypes : List String) (allowedTypes : List String)
  | publishFailed
  | accepted
deriving Repr, DecidableEq

/-- Handler outcome: the response written, and the jobs that reached the
work queue (a failed publish call enqueues nothing; earlier jobs remain). -/
structure SubmitOutcome where
  response : SubmitResponse
  published : List ImageJob
deriving Repr, DecidableEq

/-- Inner fanout loop (`router.go` lines 215-225): one publish per entry
of `processing_types`, skipping `"original"`, stopping at the first
failed call.  Returns the published jobs, the next call index, and
whether all calls succeeded. -/
def fanoutTypes (pubOk : Nat → Bool) (url : String) :
    List String → Nat → List ImageJob × Nat × Bool
  | [], idx => ([], idx, true)
  | t :: rest, idx =>
    if t == "original" then
      fanoutTypes pubOk url rest idx
    else if pubOk idx then
      let (pub, idx', ok) := fanoutTypes pubOk url rest (idx + 1)
      (jobFor url t :: pub, idx', ok)
    else
      ([], idx, false)

/-- Outer fanout loop (`router.go` lines 205-226): for each url, publish
the `"original"` job first, then the remaining types; stop at the first
failed call. -/
def fanoutUrls (pubOk : Nat → Bool) (types : List String) :
    List String → Nat → List ImageJob × Nat × Bool
  | [], idx => ([], idx, true)
  | url :: rest, idx =>
    if pubOk idx then
      let (pub₁, idx₁, ok₁) := fanoutTypes pubOk url types (idx + 1)
      if ok₁ then
        let (pub₂, idx₂, ok₂) := fanoutUrls pubOk types rest idx₁
        (jobFor url "original" :: (pub₁ ++ pub₂), idx₂, ok₂)
      else
        (jobFor url "original" :: pub₁, idx₁, false)
    else
      ([], idx, false)

/-- The `/submit` handler (`router.go` lines 174-230), starting from the
decoded submission body. -/
def submitHandler (pubOk : Nat → Bool) (job : ImageJob) : SubmitOutcome :=
  let invalidTypes := validateProcessingTypes job.processingTypes
  if invalidTypes.length > 0 then
    ⟨SubmitResponse.badRequest invalidTypes getAllowedProcessingTypes, []⟩
  else
    let (published, _, ok) := fanoutUrls pubOk job.processingTypes job.urls 0
    if ok then ⟨SubmitResponse.accepted, published⟩
    else ⟨SubmitResponse.publishFailed, published⟩

/-- The full fanout plan of a submission: for each url in order, the
`"original"` job first, then one job per non-`"original"` entry of
`processing_types` in order. -/
def typeJobs (url : String) (types : List String) : List ImageJob :=
  (types.filter (fun t => !(t == "original"))).map (jobFor url)

def fanoutPlan : List String → List String → List ImageJob
  | [], _ => []
  | url :: rest, types =>
    jobFor url "original" :: (typeJobs url types ++ fanoutPlan rest types)

/-- Follows the spec's words (§8): the set of distinct requested types
united with `{original}`, for comparison with the code's fanout count. -/
def distinctTypesWithOriginal (types : List String) : List String :=
  types.foldl (fun acc t => if acc.contains t then acc else acc ++ [t]) ["original"]

/-- Reference sequential publisher: attempt the jobs of a plan in order,
stopping at the first failed call. -/
def publishSeq (pubOk : Nat → Bool) :
    List ImageJob → Nat → List ImageJob × Nat × Bool
  | [], idx => ([], idx, true)
  | j :: rest, idx =>
    if pubOk idx then
      let (pub, idx', ok) := publishSeq pubOk rest (idx + 1)
      (j :: pub, idx', ok)
    else
      ([], idx, false)

/-! ## Worker pool (`internal/worker/consumer.go`, dispatch version)

The worker's external collaborators are modelled as oracles:
`processor.DownloadImage` may fail, the image transforms of the
`imaging` library are constructors of a free `Image` algebra (the
pixel-level algorithms are out of scope), `storage.UploadImageWithType`
and `storage.GetFileSize` may fail, and the result-queue publish may
fail. -/

/-- Free algebra of the external image library: a downloaded image and
the four transforms the worker can apply.  The `float64` sigma arguments
(`2.0`) are modelled as naturals. -/
inductive Image where
  | raw (url : String)
  | grayscale (img : Image)
  | resize (img : Image) (width height : Nat)
  | blur (img : Image) (sigma : Nat)
  | sharpen (img : Image) (sigma : Nat)
deriving Repr, DecidableEq

/-- Successful result of `processor.DownloadImage`: the decoded image,
its format, and its bounds (`img.Bounds().Dx()/Dy()`; a successfully
decoded image is non-nil, so the `img != nil` guard holds). -/
structure Downloaded where
  img : Image
  format : String
  width : Nat
  height : Nat
deriving Repr, DecidableEq

/-- `models.ImageProcessedPayload` as assembled by the worker. -/
structure ImageProcessedPayload where
  sourceURL : String
  s3Path : String
  status : String
  traceID : String
  width : Nat
  height : Nat
  format : String
  fileSize : Int
  processingType : String
deriving Repr, DecidableEq

/-- Oracles for the worker's fallible collaborator calls, plus the
configured storage bucket. -/
structure StageOracle where
  bucket : String
  download : String → Option Downloaded
  upload : Image → String → Option String
  getFileSize : String → Option Int
  publishOk : Bool

/-- The error returned by `processImage`, by failing stage. -/
inductive StageFailure where
  | download
  | unsupportedType (processingType : String)
  | upload
  | publish
deriving Repr, DecidableEq

/-- `storage.GetImageURL`: `fmt.Sprintf("s3://%s/%s", bucket, filename)`. -/
def getImageURL (bucket filename : String) : String :=
  "s3://" ++ bucket ++ "/" ++ filename

/-- The `switch processingType` dispatch of `processImage` (consumer
lines 204-222): `"original"` stores the image as-is, the four transforms
delegate to the library, and the `default` branch is an error. -/
def applyProcessing (processingType : String) (img : Image) : Option Image :=
  match processingType with
  | "original" => some img
  | "grayscale" => some (Image.grayscale img)
  | "resize" => some (Image.resize img 100 100)
  | "blur" => some (Image.blur img 2)
  | "sharpen" => some (Image.sharpen img 2)
  | _ => none

/-- `ImageWorker.processImage`: download, dispatch on the processing
type, upload, query the stored size (a failure is logged and replaced by
`0`), assemble the `"success"` result, re-encode and publish it.  The
first component is the function's error return; the second is the list
of messages that reached the result queue (a failed publish enqueues
nothing). -/
def processImage (o : StageOracle) (url processingType traceID : String) :
    Except StageFailure ImageProcessedPayload × List ImageProcessedPayload :=
  match o.download url with
  | none => (Except.error StageFailure.download, [])
  | some d =>
    match applyProcessing processingType d.img with
    | none => (Except.error (StageFailure.unsupportedType processingType), [])
    | some processedImg =>
      match o.upload processedImg processingType with
      | none => (Except.error StageFailure.upload, [])
      | some filename =>
        let fileSize : Int :=
          match o.getFileSize filename with
          | none => 0
          | some n => n
        let result : ImageProcessedPayload :=
          { sourceURL := url
            s3Path := getImageURL o.bucket filename
            status := "success"
            traceID := traceID
            width := d.width
            height := d.height
            format := d.format
            fileSize := fileSize
            processingType := processingType }
        if o.publishOk then (Except.ok result, [result])
        else (Except.error StageFailure.publish, [])

deriving instance DecidableEq for Except

/-- Outcome of `ImageWorker.processJob` for one delivery. -/
inductive JobOutcome where
  | decodeDropped
  | panicked
  | malformedDropped
  | ran (url processingType : String)
      (res : Except StageFailure ImageProcessedPayload × List ImageProcessedPayload)
deriving Repr, DecidableEq

/-- `ImageWorker.processJob`: decode the envelope and job (a decode
error is dropped and counted); the tracing span attributes then index
`job.ProcessingTypes[0]` and `job.URLs[0]` *before* the emptiness guard,
so an empty slice panics at that point; the guard's own drop branch
(`"Job missing URL or processing type"`) follows; otherwise the first
url is processed with the first processing type. -/
def processJob (o : StageOracle) (body : Bytes) : JobOutcome :=
  match Decode imageJobFromJson body with
  | (_, _, true) => JobOutcome.decodeDropped
  | (some env, some job, false) =>
    match job.processingTypes, job.urls with
    | [], _ => JobOutcome.panicked
    | _ :: _, [] => JobOutcome.panicked
    | t :: _, u :: _ =>
      if job.urls.length == 0 || job.processingTypes.length == 0 then
        JobOutcome.malformedDropped
      else
        JobOutcome.ran u t (processImage o u t env.traceID)
  | (_, _, false) => JobOutcome.decodeDropped

/-- The result-queue messages a delivery gave rise to. -/
def jobPublished (outcome : JobOutcome) : List ImageProcessedPayload :=
  match outcome with
  | JobOutcome.ran _ _ res => res.2
  | _ => []

/-! ## Bounded-concurrency consume loop (`ImageWorker.Start`)

`Start` ranges over deliveries, acquires a slot on the counting
semaphore `sem` (capacity `concurrencyLimit`) before spawning the
processing goroutine, and the goroutine releases the slot in a `defer`
when it finishes, success or failure.  The loop is modelled as a
transition system. -/

/-- `concurrencyLimit: 5` in `NewImageWorker`. -/
def defaultConcurrencyLimit : Nat := 5

/-- Observable state of the consume loop: deliveries waiting on the
channel, goroutines currently holding a semaphore slot, and finished
tasks. -/
structure PoolState where
  pending : Nat
  inFlight : Nat
  completed : Nat
deriving Repr, DecidableEq

/-- One transition of the consume loop with semaphore capacity `limit`:
a new delivery arrives; the loop acquires a slot (only possible below
capacity) and spawns a task; or a task finishes — successfully or not —
and its `defer` releases the slot unconditionally. -/
inductive PoolStep (limit : Nat) : PoolState → PoolState → Prop where
  | deliver (s : PoolState) :
      PoolStep limit s ⟨s.pending + 1, s.inFlight, s.completed⟩
  | spawn (s : PoolState) :
      0 < s.pending → s.inFlight < limit →
      PoolStep limit s ⟨s.pending - 1, s.inFlight + 1, s.completed⟩
  | finish (s : PoolState) (success : Bool) :
      0 < s.inFlight →
      PoolStep limit s ⟨s.pending, s.inFlight - 1, s.completed + 1⟩

/-- States reachable from a start state with any burst of queued
deliveries and no task yet spawned. -/
inductive PoolReachable (limit : Nat) : PoolState → Prop where
  | start (pending : Nat) : PoolReachable limit ⟨pending, 0, 0⟩
  | step {s s' : PoolState} :
      PoolReachable limit s → PoolStep limit s s' → PoolReachable limit s'

/-! ## Concrete oracles used by the witnesses -/

/-- Oracle where the url `"a"` downloads successfully and every later
stage succeeds. -/
def okOracle : StageOracle :=
  { bucket := "images"
    download := fun url =>
      if url == "a" then some ⟨Image.raw "a", "jpeg", 10, 20⟩ else none
    upload := fun _ _ => some "f.jpg"
    getFileSize := fun _ => some 42
    publishOk := true }

/-- Like `okOracle` but the storage size query fails. -/
def noSizeOracle : StageOracle :=
  { okOracle with getFileSize := fun _ => none }

/-- Like `okOracle` but the upload fails. -/
def noUploadOracle : StageOracle :=
  { okOracle with upload := fun _ _ => none }

/-! ## Helper lemmas -/

theorem jsonToStrList_strListToJson (xs : List String) :
    jsonToStrList (strListToJson xs) = some xs := by
  simp only [strListToJson, jsonToStrList]
  induction xs with
  | nil => rfl
  | cons x xs ih =>
    simp only [List.map_cons, List.mapM_cons, ih]
    rfl

theorem imageJobFromJson_toJson (job : ImageJob) :
    imageJobFromJson (imageJobToJson job) = some job := by
  simp [imageJobToJson, imageJobFromJson, getField, jsonToStrList_strListToJson]

theorem publishSeq_append_ok (pubOk : Nat → Bool) (xs ys : List ImageJob)
    (idx : Nat) (pub₁ : List ImageJob) (idx₁ : Nat)
    (h₁ : publishSeq pubOk xs idx = (pub₁, idx₁, true)) :
    publishSeq pubOk (xs ++ ys) idx =
      (pub₁ ++ (publishSeq pubOk ys idx₁).1, (publishSeq pubOk ys idx₁).2) := by
  induction xs generalizing idx pub₁ with
  | nil =>
    simp only [publishSeq, Prod.mk.injEq] at h₁
    obtain ⟨h₂, h₃, -⟩ := h₁
    subst h₂
    subst h₃
    simp
  | cons x xs ih =>
    rw [List.cons_append]
    simp only [publishSeq] at h₁ ⊢
    by_cases h : pubOk idx
    · rw [if_pos h] at h₁ ⊢
      rcases h₂ : publishSeq pubOk xs (idx + 1) with ⟨pub', idx', ok'⟩
      rw [h₂] at h₁
      simp only [Prod.mk.injEq] at h₁
      obtain ⟨hpub, hidx, hok⟩ := h₁
      subst hok
      rw [ih (idx + 1) pub' (by rw [h₂, hidx])]
      simp [← hpub, hidx]
    · rw [if_neg h] at h₁
      simp at h₁

theorem publishSeq_append_fail (pubOk : Nat → Bool) (xs ys : List ImageJob)
    (idx : Nat) (pub₁ : List ImageJob) (idx₁ : Nat)
    (h₁ : publishSeq pubOk xs idx = (pub₁, idx₁, false)) :
    publishSeq pubOk (xs ++ ys) idx = (pub₁, idx₁, false) := by
  induction xs generalizing idx pub₁ with
  | nil => simp [publishSeq] at h₁
  | cons x xs ih =>
    rw [List.cons_append]
    simp only [publishSeq] at h₁ ⊢
    by_cases h : pubOk idx
    · rw [if_pos h] at h₁ ⊢
      rcases h₂ : publishSeq pubOk xs (idx + 1) with ⟨pub', idx', ok'⟩
      rw [h₂] at h₁
      simp only [Prod.mk.injEq] at h₁
      obtain ⟨hpub, hidx, hok⟩ := h₁
      subst hok
      rw [ih (idx + 1) pub' (by rw [h₂, hidx])]
      simp [← hpub, hidx]
    · rw [if_neg h] at h₁ ⊢
      exact h₁

theorem fanoutTypes_eq_publishSeq (pubOk : Nat → Bool) (url : String)
    (types : List String) (idx : Nat) :
    fanoutTypes pubOk url types idx = publishSeq pubOk (typeJobs url types) idx := by
  induction types generalizing idx with
  | nil => rfl
  | cons t rest ih =>
    simp only [fanoutTypes, typeJobs, List.filter_cons]
    by_cases h : t == "original"
    · simp only [h, if_true, Bool.not_true, ih]
      rfl
    · simp only [h, if_false, Bool.not_false, List.map_cons, publishSeq]
      by_cases hp : pubOk idx
      · simp only [hp, if_true, ih]
        rfl
      · simp [hp]

theorem fanoutUrls_eq_publishSeq (pubOk : Nat → Bool) (types : List String)
    (urls : List String) (idx : Nat) :
    fanoutUrls pubOk types urls idx = publishSeq pubOk (fanoutPlan urls types) idx := by
  induction urls generalizing idx with
  | nil => rfl
  | cons url rest ih =>
    simp only [fanoutUrls, fanoutPlan, publishSeq]
    by_cases hp : pubOk idx
    · simp only [hp, if_true]
      rw [fanoutTypes_eq_publishSeq]
      rcases h₁ : publishSeq pubOk (typeJobs url types) (idx + 1) with ⟨pub₁, idx₁, ok₁⟩
      cases ok₁
      · rw [publishSeq_append_fail pubOk _ _ _ _ _ h₁]
        simp
      · rw [publishSeq_append_ok pubOk _ _ _ _ _ h₁, ih idx₁]
        simp
    · simp [hp]

theorem publishSeq_all_ok (pubOk : Nat → Bool) (hok : ∀ i, pubOk i = true)
    (l : List ImageJob) (idx : Nat) :
    publishSeq pubOk l idx = (l, idx + l.length, true) := by
  induction l generalizing idx with
  | nil => simp [publishSeq]
  | cons j rest ih =>
    simp only [publishSeq, hok idx, if_true, ih (idx + 1), List.length_cons,
      Prod.mk.injEq]
    refine ⟨trivial, by omega, trivial⟩

theorem publishSeq_first_fail (pubOk : Nat → Bool) (l : List ImageJob)
    (idx n : Nat) (hn : n < l.length)
    (hpre : ∀ i, i < n → pubOk (idx + i) = true)
    (hfail : pubOk (idx + n) = false) :
    publishSeq pubOk l idx = (l.take n, idx + n, false) := by
  induction l generalizing idx n with
  | nil => simp at hn
  | cons j rest ih =>
    cases n with
    | zero =>
      simp only [Nat.add_zero] at hfail
      simp [publishSeq, hfail]
    | succ n =>
      have h0 : pubOk idx = true := by
        have := hpre 0 (Nat.succ_pos n)
        simpa using this
      simp only [publishSeq, h0, if_true]
      have hrec : publishSeq pubOk rest (idx + 1) = (rest.take n, idx + 1 + n, false) := by
        refine ih (idx + 1) n (by simpa using Nat.lt_of_succ_lt_succ hn) ?_ ?_
        · intro i hi
          have := hpre (i + 1) (Nat.succ_lt_succ hi)
          simpa [Nat.add_assoc, Nat.add_comm 1 i] using this
        · simpa [Nat.add_assoc, Nat.add_comm 1 n] using hfail
      simp only [hrec, List.take_succ_cons, Prod.mk.injEq]
      refine ⟨trivial, by omega, trivial⟩

theorem publishSeq_mem (pubOk : Nat → Bool) (l : List ImageJob) (idx : Nat)
    (j : ImageJob) (hj : j ∈ (publishSeq pubOk l idx).1) : j ∈ l := by
  induction l generalizing idx with
  | nil => simp [publishSeq] at hj
  | cons x rest ih =>
    simp only [publishSeq] at hj
    by_cases hp : pubOk idx
    · simp only [hp, if_true] at hj
      rcases h₁ : publishSeq pubOk rest (idx + 1) with ⟨pub, idx', ok⟩
      rw [h₁] at hj
      simp only [List.mem_cons] at hj ⊢
      rcases hj with hj | hj
      · exact Or.inl hj
      · exact Or.inr (ih (idx + 1) (by simpa [h₁] using hj))
    · simp [hp] at hj

theorem contains_iff_mem (t : String) (l : List String) :
    l.contains t = true ↔ t ∈ l :=
  List.elem_iff

theorem validateProcessingTypes_eq_nil_iff (types : List String) :
    validateProcessingTypes types = [] ↔
      ∀ t ∈ types, t ∈ allowedProcessingTypes := by
  simp only [validateProcessingTypes, List.filter_eq_nil_iff, Bool.not_eq_true',
    Bool.not_eq_true]
  constructor
  · intro h t ht
    have := h t ht
    simpa [contains_iff_mem] using this
  · intro h t ht
    simp [contains_iff_mem, h t ht]

theorem mem_validateProcessingTypes (t : String) (types : List String) :
    t ∈ validateProcessingTypes types ↔
      t ∈ types ∧ t ∉ allowedProcessingTypes := by
  simp [validateProcessingTypes, List.mem_filter, contains_iff_mem]

theorem submitHandler_valid (pubOk : Nat → Bool) (urls types : List String)
    (hvalid : validateProcessingTypes types = []) :
    submitHandler pubOk ⟨urls, types⟩ =
      (if (publishSeq pubOk (fanoutPlan urls types) 0).2.2 then
        ⟨SubmitResponse.accepted, (publishSeq pubOk (fanoutPlan urls types) 0).1⟩
      else
        ⟨SubmitResponse.publishFailed, (publishSeq pubOk (fanoutPlan urls types) 0).1⟩) := by
  simp only [submitHandler, hvalid, List.length_nil, Nat.lt_irrefl, if_false,
    fanoutUrls_eq_publishSeq]

theorem fanoutPlan_length (urls types : List String) :
    (fanoutPlan urls types).length =
      urls.length * (1 + (types.filter (fun t => !(t == "original"))).length) := by
  induction urls with
  | nil => simp [fanoutPlan]
  | cons url rest ih =>
    simp only [fanoutPlan, List.length_cons, List.length_append, typeJobs,
      List.length_map, ih]
    ring

theorem fanoutPlan_mem_shape (urls types : List String) (j : ImageJob)
    (hj : j ∈ fanoutPlan urls types) : ∃ u t, j = jobFor u t := by
  induction urls with
  | nil => simp [fanoutPlan] at hj
  | cons url rest ih =>
    simp only [fanoutPlan, List.mem_cons, List.mem_append] at hj
    rcases hj with hj | hj | hj
    · exact ⟨url, "original", hj⟩
    · simp only [typeJobs, List.mem_map] at hj
      obtain ⟨t, -, ht⟩ := hj
      exact ⟨url, t, ht.symm⟩
    · exact ih hj

/-! ## Claims -/

/-- C1 (counterexample): the claimed count `|urls| × |distinct requested
types ∪ {original}|` fails on the valid submission
`urls = ["u"], processing_types = ["grayscale", "grayscale"]`: the
handler skips only duplicate `"original"` entries, so the duplicate
`"grayscale"` publishes a third job, while the claimed formula gives 2. -/
theorem fanout_duplicate_types_cex :
    (submitHandler (fun _ => true)
        ⟨["u"], ["grayscale", "grayscale"]⟩).published.length ≠
      ["u"].length * (distinctTypesWithOriginal ["grayscale", "grayscale"]).length := by
  decide

/-- C1 (amended): for every valid submission whose publishes all
succeed, the number of jobs published equals `|urls| × (1 + number of
non-"original" entries of processing_types counted with multiplicity)`;
duplicate `"original"` entries are skipped, but duplicate non-original
entries each publish an additional job. -/
theorem fanout_job_count (urls types : List String) (pubOk : Nat → Bool)
    (hvalid : validateProcessingTypes types = [])
    (hok : ∀ i, pubOk i = true) :
    (submitHandler pubOk ⟨urls, types⟩).published.length =
      urls.length * (1 + (types.filter (fun t => !(t == "original"))).length) := by
  rw [submitHandler_valid pubOk urls types hvalid, publishSeq_all_ok pubOk hok]
  simp [fanoutPlan_length]

/-- C1 (witness): submitting two urls with types
`["grayscale", "original"]` publishes `2 × (1 + 1) = 4` jobs. -/
theorem fanout_job_count_witness :
    (submitHandler (fun _ => true)
        ⟨["u", "v"], ["grayscale", "original"]⟩).published.length = 4 :=
  fanout_job_count ["u", "v"] ["grayscale", "original"] (fun _ => true)
    (by decide) (fun _ => rfl)

/-- C2: a submission containing any processing type outside
{original, grayscale, resize, blur, sharpen} publishes zero jobs and
returns 400 with `invalid_types` exactly the invalid entries of the
submitted types and `allowed_types` exactly the five allowed types. -/
theorem invalid_types_rejected (urls types : List String) (pubOk : Nat → Bool)
    (hinv : ∃ t ∈ types, t ∉ allowedProcessingTypes) :
    submitHandler pubOk ⟨urls, types⟩ =
      ⟨SubmitResponse.badRequest (validateProcessingTypes types)
          getAllowedProcessingTypes, []⟩
    ∧ (∀ u, u ∈ validateProcessingTypes types ↔
        u ∈ types ∧ u ∉ allowedProcessingTypes)
    ∧ getAllowedProcessingTypes =
        ["original", "grayscale", "resize", "blur", "sharpen"] := by
  obtain ⟨t, ht, hmem⟩ := hinv
  have hne : validateProcessingTypes types ≠ [] := by
    intro h
    exact hmem ((validateProcessingTypes_eq_nil_iff types).mp h t ht)
  have hlen : 0 < (validateProcessingTypes types).length :=
    List.length_pos.mpr hne
  refine ⟨?_, fun u => mem_validateProcessingTypes u types, rfl⟩
  simp [submitHandler, hlen]

/-- C2 (witness): submitting `["bogus"]` yields 400 with
`invalid_types = ["bogus"]`, the full allowed set, and no published
jobs. -/
theorem invalid_types_rejected_witness :
    submitHandler (fun _ => true) ⟨["x"], ["bogus"]⟩ =
      ⟨SubmitResponse.badRequest ["bogus"]
          ["original", "grayscale", "resize", "blur", "sharpen"], []⟩ :=
  (invalid_types_rejected ["x"] ["bogus"] (fun _ => true) (by decide)).1

/-- C3: decoding the bytes produced by `Encode(t, s, p)` succeeds and
reproduces exactly the trace id `t`, the source `s`, and any
JSON-serializable payload `p` (round-trip law). -/
theorem decode_encode_roundtrip {α : Type} (toJson : α → Json)
    (fromJson : Json → Option α) (now : Int) (t s : String) (p : α)
    (hp : fromJson (toJson p) = some p) :
    Decode fromJson (Encode now t s toJson p) =
      (some ⟨t, s, now, some (toJson p)⟩, some p, false) := by
  simp [Decode, Encode, envUnmarshal, strField, timeField, getField,
    payloadUnmarshal, hp]

/-- C3 (witness): the round trip at a concrete job payload. -/
theorem decode_encode_roundtrip_witness :
    Decode imageJobFromJson
        (Encode 7 "trace-1" "url-ingestor" imageJobToJson
          ⟨["http://x/a.jpg"], ["grayscale"]⟩) =
      (some ⟨"trace-1", "url-ingestor", 7,
          some (imageJobToJson ⟨["http://x/a.jpg"], ["grayscale"]⟩)⟩,
        some (⟨["http://x/a.jpg"], ["grayscale"]⟩ : ImageJob), false) :=
  decode_encode_roundtrip imageJobToJson imageJobFromJson 7 "trace-1"
    "url-ingestor" ⟨["http://x/a.jpg"], ["grayscale"]⟩
    (imageJobFromJson_toJson ⟨["http://x/a.jpg"], ["grayscale"]⟩)

/-- C4: in every state reachable by the worker pool's consume loop
under any sequence of deliveries, the number of simultaneously in-flight
tasks never exceeds the semaphore capacity; the capacity configured by
`NewImageWorker` is 5; and a finishing task releases its slot whether it
succeeded or failed. -/
theorem worker_pool_bounded (limit : Nat) (s : PoolState)
    (hs : PoolReachable limit s) :
    s.inFlight ≤ limit
    ∧ defaultConcurrencyLimit = 5
    ∧ (∀ (s' : PoolState) (_success : Bool), 0 < s'.inFlight →
        PoolStep limit s' ⟨s'.pending, s'.inFlight - 1, s'.completed + 1⟩) := by
  have hbound : ∀ (s' : PoolState), PoolReachable limit s' → s'.inFlight ≤ limit := by
    intro s' hs'
    induction hs' with
    | start pending => exact Nat.zero_le limit
    | step hr hstep ih =>
      cases hstep with
      | deliver => exact ih
      | spawn hp hl => exact hl
      | finish success h => exact le_trans (Nat.sub_le _ _) ih
  exact ⟨hbound s hs, rfl, fun s' success h => PoolStep.finish s' success h⟩

/-- C4 (witness): a concrete run — two spawns from a burst of three
deliveries, then one (failed) finish — stays within the default
capacity. -/
theorem worker_pool_bounded_witness :
    (⟨1, 1, 1⟩ : PoolState).inFlight ≤ defaultConcurrencyLimit := by
  have h0 : PoolReachable defaultConcurrencyLimit ⟨3, 0, 0⟩ :=
    PoolReachable.start 3
  have h1 : PoolReachable defaultConcurrencyLimit ⟨2, 1, 0⟩ :=
    h0.step (PoolStep.spawn ⟨3, 0, 0⟩ (by decide) (by decide))
  have h2 : PoolReachable defaultConcurrencyLimit ⟨1, 2, 0⟩ :=
    h1.step (PoolStep.spawn ⟨2, 1, 0⟩ (by decide) (by decide))
  have h3 : PoolReachable defaultConcurrencyLimit ⟨1, 1, 1⟩ :=
    h2.step (PoolStep.finish ⟨1, 2, 0⟩ false (by decide))
  exact (worker_pool_bounded defaultConcurrencyLimit ⟨1, 1, 1⟩ h3).1

/-- C5: the worker's transform is selected by the job's processing_type:
`"original"` keeps the downloaded image unchanged, the other four
delegate to the corresponding library transform, and any other
processing type makes `processImage` fail with an unsupported-type error
and publish nothing rather than applying a default transform. -/
theorem transform_dispatch :
    (∀ img, applyProcessing "original" img = some img)
    ∧ (∀ img, applyProcessing "grayscale" img = some (Image.grayscale img))
    ∧ (∀ img, applyProcessing "resize" img = some (Image.resize img 100 100))
    ∧ (∀ img, applyProcessing "blur" img = some (Image.blur img 2))
    ∧ (∀ img, applyProcessing "sharpen" img = some (Image.sharpen img 2))
    ∧ (∀ t img, t ∉ allowedProcessingTypes → applyProcessing t img = none)
    ∧ (∀ o url t traceID d, o.download url = some d →
        applyProcessing t d.img = none →
        processImage o url t traceID =
          (Except.error (StageFailure.unsupportedType t), [])) := by
  refine ⟨fun _ => rfl, fun _ => rfl, fun _ => rfl, fun _ => rfl, fun _ => rfl,
    ?_, ?_⟩
  · intro t img hmem
    unfold applyProcessing
    split
    all_goals first
      | rfl
      | simp_all [allowedProcessingTypes]
  · intro o url t traceID d hd happ
    simp [processImage, hd, happ]

/-- C5 (witness): the unrecognized type `"invert"` is rejected by the
dispatch and fails the job without publishing. -/
theorem transform_dispatch_witness :
    applyProcessing "invert" (Image.raw "a") = none
    ∧ processImage okOracle "a" "invert" "tr" =
        (Except.error (StageFailure.unsupportedType "invert"), []) :=
  ⟨transform_dispatch.2.2.2.2.2.1 "invert" (Image.raw "a") (by decide),
   transform_dispatch.2.2.2.2.2.2 okOracle "a" "invert" "tr"
     ⟨Image.raw "a", "jpeg", 10, 20⟩ rfl rfl⟩

/-- C6: on a valid submission the handler publishes, per url in order,
the `"original"` job first and then one job per non-`"original"`
requested type in order (`fanoutPlan`); if the first failed publish call
is call `n`, the handler returns 500 having published exactly the first
`n` planned jobs, which remain; and every published job carries exactly
one url and one processing type. -/
theorem fanout_order_and_failure (urls types : List String) (pubOk : Nat → Bool)
    (hvalid : validateProcessingTypes types = []) :
    ((∀ i, pubOk i = true) →
      submitHandler pubOk ⟨urls, types⟩ =
        ⟨SubmitResponse.accepted, fanoutPlan urls types⟩)
    ∧ (∀ n, n < (fanoutPlan urls types).length →
        (∀ i, i < n → pubOk i = true) → pubOk n = false →
        submitHandler pubOk ⟨urls, types⟩ =
          ⟨SubmitResponse.publishFailed, (fanoutPlan urls types).take n⟩)
    ∧ (∀ j, j ∈ (submitHandler pubOk ⟨urls, types⟩).published →
        ∃ u t, j = jobFor u t) := by
  refine ⟨?_, ?_, ?_⟩
  · intro hok
    rw [submitHandler_valid pubOk urls types hvalid, publishSeq_all_ok pubOk hok]
    simp
  · intro n hn hpre hfail
    rw [submitHandler_valid pubOk urls types hvalid,
      publishSeq_first_fail pubOk _ 0 n hn
        (fun i hi => by simpa using hpre i hi) (by simpa using hfail)]
    simp
  · intro j hj
    rw [submitHandler_valid pubOk urls types hvalid] at hj
    have hj' : j ∈ (publishSeq pubOk (fanoutPlan urls types) 0).1 := by
      cases h : (publishSeq pubOk (fanoutPlan urls types) 0).2.2 with
      | false =>
        rw [if_neg (by simp [h])] at hj
        exact hj
      | true =>
        rw [if_pos (by simp [h])] at hj
        exact hj
    exact fanoutPlan_mem_shape urls types j (publishSeq_mem pubOk _ 0 j hj')

/-- C6 (witness): with the third publish call failing, submitting
`["a", "b"] × ["grayscale"]` returns 500 with exactly the first two
planned jobs published. -/
theorem fanout_order_and_failure_witness :
    submitHandler (fun i => !(i == 2)) ⟨["a", "b"], ["grayscale"]⟩ =
      ⟨SubmitResponse.publishFailed,
        [jobFor "a" "original", jobFor "a" "grayscale"]⟩ :=
  (fanout_order_and_failure ["a", "b"] ["grayscale"] (fun i => !(i == 2))
      (by decide)).2.1 2 (by decide) (by decide) (by decide)

/-- C7: for every byte string, if the outer wrapper fails to
deserialize, decode returns no envelope, no payload, and an error; if
the outer wrapper deserializes but the inner payload does not, decode
returns the envelope (trace_id and source available) together with an
error and no payload. -/
theorem decode_failure_stages {α : Type} (fromJson : Json → Option α) (b : Bytes) :
    (envUnmarshal b = none → Decode fromJson b = (none, none, true))
    ∧ (∀ env, envUnmarshal b = some env →
        payloadUnmarshal fromJson env = none →
        Decode fromJson b = (some env, none, true)) := by
  constructor
  · intro h
    simp [Decode, h]
  · intro env henv hp
    simp [Decode, henv, hp]

/-- C7 (witness): invalid bytes yield neither component; an envelope
whose payload is not a job yields the envelope alongside the error. -/
theorem decode_failure_stages_witness :
    Decode imageJobFromJson Bytes.invalid = (none, none, true)
    ∧ Decode imageJobFromJson (Encode 0 "t" "s" (fun _ => Json.null) ()) =
        (some ⟨"t", "s", 0, some Json.null⟩, none, true) :=
  ⟨(decode_failure_stages imageJobFromJson Bytes.invalid).1 rfl,
   (decode_failure_stages imageJobFromJson
        (Encode 0 "t" "s" (fun _ => Json.null) ())).2
      ⟨"t", "s", 0, some Json.null⟩ rfl rfl⟩

/-- C8 (counterexample): a successfully decoded job whose payload holds
two urls — so not exactly one — is NOT dropped: the worker processes the
first url with the first processing type and publishes a result message
for it. -/
theorem worker_multi_url_not_dropped_cex :
    processJob okOracle
        (Encode 0 "tr" "url-ingestor" imageJobToJson ⟨["a", "b"], ["grayscale"]⟩) =
      JobOutcome.ran "a" "grayscale" (processImage okOracle "a" "grayscale" "tr")
    ∧ jobPublished (processJob okOracle
        (Encode 0 "tr" "url-ingestor" imageJobToJson ⟨["a", "b"], ["grayscale"]⟩)) ≠ [] :=
  ⟨rfl, by decide⟩

/-- C8 (amended): after a successful decode, a payload with zero urls or
zero processing types performs no download, transform, upload, or result
publish — but by panicking at the span-attribute indexing rather than
reaching the guard's log line; a payload with at least one of each is
not dropped: the worker processes the first url with the first
processing type (extra entries are ignored); and the guard's
log-and-drop branch is unreachable. -/
theorem worker_job_arity_handling (o : StageOracle) (body : Bytes)
    (env : Envelope) (job : ImageJob)
    (hdec : Decode imageJobFromJson body = (some env, some job, false)) :
    (job.processingTypes = [] ∨ job.urls = [] →
      processJob o body = JobOutcome.panicked
      ∧ jobPublished (processJob o body) = [])
    ∧ (∀ u us t ts, job.urls = u :: us → job.processingTypes = t :: ts →
        processJob o body = JobOutcome.ran u t (processImage o u t env.traceID))
    ∧ processJob o body ≠ JobOutcome.malformedDropped := by
  obtain ⟨urls, ptypes⟩ := job
  cases ptypes with
  | nil =>
    have hout : processJob o body = JobOutcome.panicked := by
      simp only [processJob, hdec]
    refine ⟨fun _ => ⟨hout, by rw [hout]; rfl⟩, ?_, by rw [hout]; simp⟩
    intro u us t ts hu ht
    simp at ht
  | cons t0 ts0 =>
    cases urls with
    | nil =>
      have hout : processJob o body = JobOutcome.panicked := by
        simp only [processJob, hdec]
      refine ⟨fun _ => ⟨hout, by rw [hout]; rfl⟩, ?_, by rw [hout]; simp⟩
      intro u us t ts hu ht
      simp at hu
    | cons u0 us0 =>
      have hout : processJob o body =
          JobOutcome.ran u0 t0 (processImage o u0 t0 env.traceID) := by
        simp only [processJob, hdec]
        simp
      refine ⟨?_, ?_, by rw [hout]; simp⟩
      · intro h
        rcases h with h | h <;> simp at h
      · intro u us t ts hu ht
        injection hu with hu1 hu2
        injection ht with ht1 ht2
        subst hu1
        subst ht1
        exact hout

/-- C8 (amended, witness): a decoded job with empty urls and types lands
on the panic path. -/
theorem worker_job_arity_handling_witness :
    processJob okOracle (Encode 0 "tr" "url-ingestor" imageJobToJson ⟨[], []⟩) =
      JobOutcome.panicked :=
  ((worker_job_arity_handling okOracle
      (Encode 0 "tr" "url-ingestor" imageJobToJson ⟨[], []⟩)
      ⟨"tr", "url-ingestor", 0, some (imageJobToJson ⟨[], []⟩)⟩
      ⟨[], []⟩ rfl).1 (Or.inl rfl)).1

/-- C9: a job failing its download, transform dispatch, or upload stage
produces no result message and no `ProcessedResult`; and every message
that reaches the result queue has status `"success"`. -/
theorem failed_stages_publish_nothing :
    (∀ o url t traceID, StageOracle.download o url = none →
      processImage o url t traceID = (Except.error StageFailure.download, []))
    ∧ (∀ o url t traceID d, StageOracle.download o url = some d →
        applyProcessing t d.img = none →
        processImage o url t traceID =
          (Except.error (StageFailure.unsupportedType t), []))
    ∧ (∀ o url t traceID d pi, StageOracle.download o url = some d →
        applyProcessing t d.img = some pi → StageOracle.upload o pi t = none →
        processImage o url t traceID = (Except.error StageFailure.upload, []))
    ∧ (∀ o url t traceID r, r ∈ (processImage o url t traceID).2 →
        ImageProcessedPayload.status r = "success") := by
  refine ⟨?_, ?_, ?_, ?_⟩
  · intro o url t traceID h
    simp [processImage, h]
  · intro o url t traceID d hd ha
    simp [processImage, hd, ha]
  · intro o url t traceID d pi hd ha hu
    simp [processImage, hd, ha, hu]
  · intro o url t traceID r hr
    rcases hd : StageOracle.download o url with _ | d
    · simp [processImage, hd] at hr
    · rcases ha : applyProcessing t d.img with _ | pi
      · simp [processImage, hd, ha] at hr
      · rcases hu : StageOracle.upload o pi t with _ | fn
        · simp [processImage, hd, ha, hu] at hr
        · by_cases hp : o.publishOk
          · simp [processImage, hd, ha, hu, hp] at hr
            rw [hr]
          · simp [processImage, hd, ha, hu, hp] at hr

/-- C9 (witness): a failed download and a failed upload each publish
nothing; the one message of a successful run has status `"success"`. -/
theorem failed_stages_publish_nothing_witness :
    processImage okOracle "b" "grayscale" "tr" =
      (Except.error StageFailure.download, [])
    ∧ processImage noUploadOracle "a" "grayscale" "tr" =
        (Except.error StageFailure.upload, [])
    ∧ ImageProcessedPayload.status
        { sourceURL := "a", s3Path := "s3://images/f.jpg",
          status := "success", traceID := "tr", width := 10, height := 20,
          format := "jpeg", fileSize := 42, processingType := "grayscale" } =
        "success" :=
  ⟨failed_stages_publish_nothing.1 okOracle "b" "grayscale" "tr" rfl,
   failed_stages_publish_nothing.2.2.1 noUploadOracle "a" "grayscale" "tr"
     ⟨Image.raw "a", "jpeg", 10, 20⟩ (Image.grayscale (Image.raw "a")) rfl rfl rfl,
   failed_stages_publish_nothing.2.2.2 okOracle "a" "grayscale" "tr"
     { sourceURL := "a", s3Path := "s3://images/f.jpg", status := "success",
       traceID := "tr", width := 10, height := 20, format := "jpeg",
       fileSize := 42, processingType := "grayscale" } (by decide)⟩

/-- C10: when the upload succeeds but the storage file-size query fails,
the worker does not drop the job: the failure is logged, `file_size`
falls back to 0, and (the broker accepting the publish) exactly one
result message is published for the job, with `fileSize = 0`. -/
theorem size_query_failure_still_publishes (o : StageOracle)
    (url t traceID : String) (d : Downloaded) (pi : Image) (fn : String)
    (hd : StageOracle.download o url = some d)
    (ha : applyProcessing t d.img = some pi)
    (hu : StageOracle.upload o pi t = some fn)
    (hs : StageOracle.getFileSize o fn = none)
    (hp : o.publishOk = true) :
    ∃ r, processImage o url t traceID = (Except.ok r, [r])
      ∧ ImageProcessedPayload.fileSize r = 0 := by
  refine ⟨{ sourceURL := url, s3Path := getImageURL o.bucket fn,
            status := "success", traceID := traceID, width := d.width,
            height := d.height, format := d.format, fileSize := 0,
            processingType := t }, ?_, rfl⟩
  simp [processImage, hd, ha, hu, hs, hp]

/-- C10 (witness): with the size query failing and all else succeeding,
exactly one result with `fileSize = 0` is published. -/
theorem size_query_failure_still_publishes_witness :
    ∃ r, processImage noSizeOracle "a" "grayscale" "tr" = (Except.ok r, [r])
      ∧ ImageProcessedPayload.fileSize r = 0 :=
  size_query_failure_still_publishes noSizeOracle "a" "grayscale" "tr"
    ⟨Image.raw "a", "jpeg", 10, 20⟩ (Image.grayscale (Image.raw "a")) "f.jpg"
    rfl rfl rfl rfl rfl

end ImageProc
